import Mathlib

/-!
Verification of the hoops-backend game lifecycle scheduler and selection
engine.  The definitions below are a shallow embedding of the Python
source (`app/algorithms.py`, `app/scheduler.py`, `app/main.py`,
`app/database.py`): SQLite tables become lists of records, row UPDATEs
become in-place status rewrites keyed by row id, and the nondeterministic
`random.shuffle` calls become explicit function parameters that theorems
constrain to be permutations.
-/

/-- Player priority tier (`group_members.priority` / `players.priority`,
values high/standard/low). -/
inductive Priority
  | high
  | standard
  | low
  deriving DecidableEq

/-- Signup status (`game_signups.status`, values in/waitlist/pending).
`in` is a Lean keyword, so the admitted state is called `inGame`. -/
inductive Status
  | inGame
  | waitlist
  | pending
  deriving DecidableEq

/-- Game admission algorithm (`games.algorithm`). -/
inductive Algorithm
  | first_come
  | random
  | weighted
  deriving DecidableEq

/-- Game lifecycle phase (`games.phase`). -/
inductive Phase
  | created
  | notifying_high
  | notifying_standard
  | notifying_low
  | signup
  | active
  | closed
  | cancelled
  deriving DecidableEq

/-- One row of `game_signups`, with the player's priority tier joined in
(the selection query LEFT JOINs `group_members` and coalesces to
standard).  `id` is the primary key, unique per row; `(game_id,
player_id)` is UNIQUE, so at most one row per player per game. -/
structure Signup where
  id : Nat
  player_id : Nat
  signed_up_at : Nat
  status : Status
  owner_added : Bool
  priority : Priority
  deriving DecidableEq

/-- The columns of one `games` row that the scheduler and the selection
engine read or write. -/
structure Game where
  cap : Int
  cap_enabled : Bool
  algorithm : Algorithm
  phase : Phase
  selection_done : Bool
  closed : Bool
  random_high_auto : Bool
  deriving DecidableEq

/-- One row of `players` as read by `_notify_priority_tier`
(`status = 'approved'` becomes the `approved` flag). -/
structure Player where
  id : Nat
  approved : Bool
  priority : Priority
  deriving DecidableEq

/-- `SELECT COUNT(*) FROM game_signups WHERE game_id=? AND status='in'`. -/
def countIn (l : List Signup) : Nat :=
  l.countP (fun s => s.status == Status.inGame)

/-- Number of owner-added signups of a game. -/
def ownerAddedCount (l : List Signup) : Nat :=
  (l.filter (fun s => s.owner_added)).length

/-- Steps 3b/4 of `run_random_selection` (algorithms.py lines 89-101): the
"pure random" phase over the `others` pool.  Returns (players set in,
players appended to the waitlist).  `available` is an `int` in Python and
may be negative; the admission test `i < available` over indices `i ≥ 0`
admits exactly the first `available.toNat` entries of the shuffled list. -/
def othersPhase (shuffleO : List Signup → List Signup) (available : Int)
    (others : List Signup) : List Signup × List Signup :=
  if 0 < available ∧ others ≠ [] then
    ((shuffleO others).take available.toNat, (shuffleO others).drop available.toNat)
  else if others ≠ [] then
    ([], shuffleO others)
  else
    ([], [])

/-- The tier-selection core of `run_random_selection` (algorithms.py
lines 30-101).  Returns the pair (rows updated to `'in'`, rows later
updated to `'waitlist'`), in the order the Python code appends them.
`shuffleH`/`shuffleO` stand for the two `random.shuffle` calls. -/
def selectTiers (shuffleH shuffleO : List Signup → List Signup)
    (g : Game) (signups : List Signup) : List Signup × List Signup :=
  -- cap = game["cap"] if game["cap_enabled"] else 999999
  let cap : Int := if g.cap_enabled then g.cap else 999999
  -- 1. owner-added rows are unconditionally set 'in'; available -= 1 each
  let owner := signups.filter (fun s => s.owner_added)
  let available : Int := cap - owner.length
  let remaining := signups.filter (fun s => !s.owner_added)
  if g.random_high_auto then
    let high_pri := remaining.filter (fun s => s.priority == Priority.high)
    let others := remaining.filter (fun s => !(s.priority == Priority.high))
    if (high_pri.length : Int) ≤ available then
      -- 2. all high-priority fit: every one set 'in', available -= len
      let p := othersPhase shuffleO (available - high_pri.length) others
      (owner ++ high_pri ++ p.1, p.2)
    else
      -- 2. shuffle high tier, indices i < available set 'in', rest
      -- waitlisted, then available = 0
      let shuffled := shuffleH high_pri
      let p := othersPhase shuffleO 0 others
      (owner ++ shuffled.take available.toNat ++ p.1,
       shuffled.drop available.toNat ++ p.2)
  else
    -- no priority advantage: all remaining form the random pool
    let p := othersPhase shuffleO available remaining
    (owner ++ p.1, p.2)

/-- Replay of the SQL UPDATEs on one row: the `'in'` updates are issued
while tiers are processed and the `'waitlist'` updates afterwards, so when
a row id appeared in both lists the waitlist write would land last. -/
def updStatus (ins wl : List Signup) (s : Signup) : Signup :=
  if wl.any (fun t => t.id == s.id) then { s with status := Status.waitlist }
  else if ins.any (fun t => t.id == s.id) then { s with status := Status.inGame }
  else s

/-- Applies the selection outcome to the `game_signups` table. -/
def applySelection (signups ins wl : List Signup) : List Signup :=
  signups.map (updStatus ins wl)

/-- `run_random_selection(db, game_id)` (algorithms.py): final signup
table and final game row (`selection_done = 1, phase = 'active'`).  The
notification payload (waitlist positions) is out of scope here. -/
def run_random_selection (shuffleH shuffleO : List Signup → List Signup)
    (g : Game) (signups : List Signup) : List Signup × Game :=
  let p := selectTiers shuffleH shuffleO g signups
  (applySelection signups p.1 p.2,
   { g with selection_done := true, phase := Phase.active })

/-- `Scheduler._check_spots_open` (scheduler.py lines 277-287). -/
def check_spots_open (g : Game) (signups : List Signup) : Bool :=
  if !g.cap_enabled then true
  else (countIn signups : Int) < g.cap

/-- The auto-signup loop of `_notify_priority_tier` /
`schedule_game_notifications`: one `INSERT OR IGNORE INTO game_signups
(game_id, player_id, status, owner_added) VALUES (?, ?, 'pending', 1)`
per player id.  `game_signups` has `UNIQUE(game_id, player_id)`, so the
insert is a no-op whenever the player already has any signup row for the
game; otherwise a fresh row (primary key `nextId`, timestamp `now`) is
appended.  The inserted players are high-priority, so their joined tier
is `high`. -/
def autoSignupAll (now : Nat) : List Signup → Nat → List Nat → List Signup
  | signups, _, [] => signups
  | signups, nextId, pid :: rest =>
    if signups.any (fun s => s.player_id == pid) then
      autoSignupAll now signups nextId rest
    else
      autoSignupAll now
        (signups ++ [⟨nextId, pid, now, Status.pending, true, Priority.high⟩])
        (nextId + 1) rest

/-- `Scheduler._notify_priority_tier(db, game_id, priority, game)`
(scheduler.py lines 226-275).  `players` is the `players` table,
`already` the player ids holding a `signup_open` row in
`game_notifications`.  Returns the updated signup table and the list of
player ids that were notified. -/
def notify_priority_tier (g : Game) (prio : Priority) (players : List Player)
    (already : List Nat) (signups : List Signup) (now nextId : Nat) :
    List Signup × List Nat :=
  let ps := players.filter
    (fun p => p.approved && p.priority == prio && !(already.contains p.id))
  if ps.isEmpty then (signups, [])
  else
    let signups' :=
      if prio == Priority.high && g.algorithm == Algorithm.random
          && g.random_high_auto then
        autoSignupAll now signups nextId (ps.map (fun p => p.id))
      else signups
    (signups', ps.map (fun p => p.id))

/-- The high-tier block of `schedule_game_notifications` (scheduler.py
lines 394-416, the immediate path): all approved high-priority players
are fetched, and if the game is random with `random_high_auto` they are
auto-signed up with the same `INSERT OR IGNORE`. -/
def immediateHighAutoSignup (g : Game) (players : List Player)
    (signups : List Signup) (now nextId : Nat) : List Signup :=
  let high := players.filter (fun p => p.approved && p.priority == Priority.high)
  if high.isEmpty then signups
  else if g.algorithm == Algorithm.random && g.random_high_auto then
    autoSignupAll now signups nextId (high.map (fun p => p.id))
  else signups

/-- Job kinds of `scheduler_jobs.job_type`. -/
inductive JobType
  | notify_high
  | notify_standard
  | notify_low
  | run_selection
  deriving DecidableEq

/-- `scheduler_jobs.status` values. -/
inductive JobStatus
  | pending
  | running
  | completed
  | failed
  deriving DecidableEq

/-- Net effect of `Scheduler._execute_job` on the game row, the signup
table and the job row, plus which tier (if any) had its notification
routine invoked. -/
structure ExecResult where
  game : Game
  signups : List Signup
  jobStatus : JobStatus
  notifiedTier : Option Priority
  deriving DecidableEq

/-- `Scheduler._execute_job(db, job)` (scheduler.py lines 141-213) for a
job of the given type on game `g`.  The `SELECT ... WHERE id=? AND
closed=0` re-check makes a closed game complete the job with no side
effects.  For `run_selection` the guard is `not selection_done and
algorithm == 'random'`. -/
def execute_job (shuffleH shuffleO : List Signup → List Signup)
    (jt : JobType) (g : Game) (signups : List Signup)
    (players : List Player) (already : List Nat) (now nextId : Nat) :
    ExecResult :=
  if g.closed then ⟨g, signups, JobStatus.completed, none⟩
  else
    match jt with
    | JobType.notify_standard =>
      let r := notify_priority_tier g Priority.standard players already signups now nextId
      ⟨{ g with phase := Phase.notifying_standard }, r.1, JobStatus.completed,
        some Priority.standard⟩
    | JobType.notify_low =>
      if check_spots_open g signups then
        let r := notify_priority_tier g Priority.low players already signups now nextId
        ⟨{ g with phase := Phase.notifying_low }, r.1, JobStatus.completed,
          some Priority.low⟩
      else
        -- game full: skip the notification but still mark completed;
        -- the phase column is not touched
        ⟨g, signups, JobStatus.completed, none⟩
    | JobType.run_selection =>
      if !g.selection_done && g.algorithm == Algorithm.random then
        let r := run_random_selection shuffleH shuffleO g signups
        ⟨r.2, r.1, JobStatus.completed, none⟩
      else
        ⟨g, signups, JobStatus.completed, none⟩
    | JobType.notify_high =>
      let r := notify_priority_tier g Priority.high players already signups now nextId
      ⟨g, r.1, JobStatus.completed, some Priority.high⟩

/-- `POST /api/games/{game_id}/run-selection` (main.py lines 1210-1222):
after the 404 and organizer checks, the only gate is `algorithm ==
'random'`; `run_random_selection` is then invoked unconditionally. -/
def run_selection_endpoint (shuffleH shuffleO : List Signup → List Signup)
    (g : Game) (signups : List Signup) :
    Except String (List Signup × Game) :=
  if g.algorithm != Algorithm.random then Except.error "Not a random game"
  else Except.ok (run_random_selection shuffleH shuffleO g signups)

/-- `POST /api/games/{game_id}/signup` (main.py lines 1226-1259), the
state mutation: group membership and notification dispatch are out of
scope, the inserted row carries the caller-supplied joined priority. -/
def signup_for_game (g : Game) (signups : List Signup) (pid : Nat)
    (now nextId : Nat) (prio : Priority) : Except String (List Signup) :=
  if g.closed then Except.error "Game is closed"
  else if signups.any (fun s => s.player_id == pid) then
    Except.error "Already signed up"
  else
    let st :=
      if g.algorithm == Algorithm.first_come && g.selection_done then
        let cap : Int := if g.cap_enabled then g.cap else 999999
        if (countIn signups : Int) < cap then Status.inGame else Status.waitlist
      else Status.pending
    Except.ok (signups ++ [⟨nextId, pid, now, st, false, prio⟩])

/-- One fold step of `SELECT ... WHERE status='waitlist' ORDER BY
signed_up_at ASC LIMIT 1`: keep the earliest row seen so far (the first
minimal row in table order when timestamps tie). -/
def earliestStep (acc : Option Signup) (s : Signup) : Option Signup :=
  match acc with
  | none => some s
  | some b => if s.signed_up_at < b.signed_up_at then some s else some b

/-- The waitlist row selected for promotion by `drop_from_game`. -/
def earliestWaitlist (l : List Signup) : Option Signup :=
  (l.filter (fun s => s.status == Status.waitlist)).foldl earliestStep none

/-- Net effect of `DELETE /api/games/{game_id}/signup`. -/
structure DropOutcome where
  signups : List Signup
  promotedId : Option Nat
  promotedPlayer : Option Nat
  organizersNotified : Bool
  deriving DecidableEq

/-- `drop_from_game` (main.py lines 1262-1294).  The dropped row is
deleted; if its status was `'in'` and the game is `first_come` with
`selection_done`, the earliest-`signed_up_at` waitlist row is promoted to
`'in'`; organizers are notified whenever the dropped status was `'in'`
and the group setting `notify_owner_player_drop` is not `"0"`. -/
def drop_from_game (g : Game) (signups : List Signup) (pid : Nat)
    (dropSetting : String) : Except String DropOutcome :=
  match signups.find? (fun s => s.player_id == pid) with
  | none => Except.error "Not signed up"
  | some signup =>
    let was_in := signup.status == Status.inGame
    let afterDelete := signups.filter (fun s => !(s.player_id == pid))
    if was_in then
      let promoted :=
        if g.algorithm == Algorithm.first_come && g.selection_done then
          earliestWaitlist afterDelete
        else none
      let afterPromote :=
        match promoted with
        | some nu => afterDelete.map
            (fun s => if s.id == nu.id then { s with status := Status.inGame } else s)
        | none => afterDelete
      Except.ok ⟨afterPromote, promoted.map (fun s => s.id),
        promoted.map (fun s => s.player_id), dropSetting != "0"⟩
    else
      Except.ok ⟨afterDelete, none, none, false⟩

/-- One row of `scheduler_jobs` as far as cascade scheduling is
concerned; times are minutes on an absolute integer axis. -/
structure JobRow where
  game_id : Nat
  job_type : JobType
  scheduled_at : Int
  deriving DecidableEq

/-- `INSERT OR IGNORE INTO scheduler_jobs (game_id, job_type,
scheduled_at) VALUES (?,?,?)` under `UNIQUE(game_id, job_type)`
(database.py lines 136-144): a no-op when a row with the same
(game, job type) already exists. -/
def insertOrIgnoreJob (jobs : List JobRow) (row : JobRow) : List JobRow :=
  if jobs.any (fun j => j.game_id == row.game_id && j.job_type == row.job_type) then
    jobs
  else jobs ++ [row]

/-- `DEFAULT_SETTINGS` of database.py (the keys cascade scheduling would
read). -/
def DEFAULT_SETTINGS : List (String × String) :=
  [("default_cap", "12"), ("cap_enabled", "1"),
   ("default_algorithm", "first_come"), ("default_location", ""),
   ("high_priority_delay_minutes", "60"),
   ("alternative_delay_minutes", "1440"),
   ("random_wait_period_minutes", "60"),
   ("notify_owner_new_signup", "1")]

/-- `get_setting(db, key, group_id)` (database.py lines 257-261): the
`group_settings` row for (key, group_id), else the default. -/
def get_setting (settings : List (String × Nat × String)) (key : String)
    (group_id : Nat) : Option String :=
  match settings.find? (fun kv => kv.1 == key && kv.2.1 == group_id) with
  | some kv => some kv.2.2
  | none => (DEFAULT_SETTINGS.find? (fun kv => kv.1 == key)).map (fun kv => kv.2)

/-- The call `get_setting(db, key)` issued by
`Scheduler._schedule_cascade_jobs` (scheduler.py lines 303-305).
`get_setting` has three required positional parameters, so Python raises
`TypeError` as soon as the call is evaluated. -/
def get_setting_missing_group_id (_settings : List (String × Nat × String))
    (_key : String) : Except String String :=
  Except.error
    "TypeError: get_setting missing 1 required positional argument: group_id"

/-- `Scheduler._schedule_cascade_jobs(db, game_id, notification_start)`
(scheduler.py lines 291-344).  `games` maps game ids to algorithms for
the trailing `SELECT algorithm` query; `start` is the cascade start time
in minutes.  Each `await get_setting(db, ...)` call omits the mandatory
`group_id` argument, so the function raises before reaching any INSERT. -/
def schedule_cascade_jobs (settings : List (String × Nat × String))
    (games : List (Nat × Algorithm)) (jobs : List JobRow)
    (game_id : Nat) (start : Int) : Except String (List JobRow) := do
  let hp ← get_setting_missing_group_id settings "high_priority_delay_minutes"
  let alt ← get_setting_missing_group_id settings "alternative_delay_minutes"
  let rand ← get_setting_missing_group_id settings "random_wait_period_minutes"
  let hp_delay : Int := (hp.toInt?).getD 60
  let alt_delay : Int := (alt.toInt?).getD 1440
  let rand_wait : Int := (rand.toInt?).getD 60
  let standard_time := start + hp_delay
  let low_time := standard_time + alt_delay
  let jobs1 := insertOrIgnoreJob jobs ⟨game_id, JobType.notify_standard, standard_time⟩
  let jobs2 := insertOrIgnoreJob jobs1 ⟨game_id, JobType.notify_low, low_time⟩
  let jobs3 :=
    match games.find? (fun p => p.1 == game_id) with
    | some p =>
      if p.2 == Algorithm.random then
        insertOrIgnoreJob jobs2
          ⟨game_id, JobType.run_selection, standard_time + rand_wait⟩
      else jobs2
    | none => jobs2
  pure jobs3

/-! ## Helper lemmas about the selection engine -/

theorem othersPhase_perm (so : List Signup → List Signup)
    (hso : ∀ l, List.Perm (so l) l) (a : Int) (others : List Signup) :
    List.Perm ((othersPhase so a others).1 ++ (othersPhase so a others).2) others := by
  by_cases h : 0 < a ∧ others ≠ []
  · simp only [othersPhase, if_pos h, List.take_append_drop]
    exact hso others
  · by_cases h2 : others ≠ []
    · simp only [othersPhase, if_neg h, if_pos h2, List.nil_append]
      exact hso others
    · simp only [ne_eq, not_not] at h2
      subst h2
      simp [othersPhase]

theorem othersPhase_fst_length (so : List Signup → List Signup)
    (a : Int) (others : List Signup) :
    ((othersPhase so a others).1).length ≤ a.toNat := by
  by_cases h : 0 < a ∧ others ≠ []
  · simp only [othersPhase, if_pos h, List.length_take]
    exact min_le_left _ _
  · by_cases h2 : others ≠ []
    · simp only [othersPhase, if_neg h, if_pos h2, List.length_nil]
      exact Nat.zero_le _
    · simp only [othersPhase, if_neg h, if_neg h2, List.length_nil]
      exact Nat.zero_le _

theorem othersPhase_zero (so : List Signup → List Signup)
    (hso : ∀ l, List.Perm (so l) l) (others : List Signup) :
    (othersPhase so 0 others).1 = [] ∧
      List.Perm (othersPhase so 0 others).2 others := by
  have h : ¬ ((0:Int) < 0 ∧ others ≠ []) := by simp
  by_cases h2 : others ≠ []
  · constructor
    · simp only [othersPhase, if_neg h, if_pos h2]
    · simp only [othersPhase, if_neg h, if_pos h2]
      exact hso others
  · simp only [ne_eq, not_not] at h2
    subst h2
    exact ⟨by simp [othersPhase], by simp [othersPhase]⟩

theorem perm_branch1 {owner rem high others oin owl signups : List Signup}
    (h1 : List.Perm (owner ++ rem) signups)
    (h2 : List.Perm (high ++ others) rem)
    (h3 : List.Perm (oin ++ owl) others) :
    List.Perm ((owner ++ high ++ oin) ++ owl) signups := by
  have e : (owner ++ high ++ oin) ++ owl = owner ++ (high ++ (oin ++ owl)) := by
    simp [List.append_assoc]
  rw [e]
  exact ((h3.append_left high).append_left owner).trans
    ((h2.append_left owner).trans h1)

theorem perm_branch2 {owner rem high others shuffled owl signups : List Signup}
    (n : Nat)
    (h1 : List.Perm (owner ++ rem) signups)
    (h2 : List.Perm (high ++ others) rem)
    (hsh : List.Perm shuffled high)
    (howl : List.Perm owl others) :
    List.Perm ((owner ++ shuffled.take n ++ []) ++ (shuffled.drop n ++ owl))
      signups := by
  simp only [List.append_nil]
  rw [List.append_assoc, ← List.append_assoc (shuffled.take n),
    List.take_append_drop]
  exact (((hsh.append howl).trans h2).append_left owner).trans h1

theorem perm_branch3 {owner rem oin owl signups : List Signup}
    (h1 : List.Perm (owner ++ rem) signups)
    (h3 : List.Perm (oin ++ owl) rem) :
    List.Perm ((owner ++ oin) ++ owl) signups := by
  rw [List.append_assoc]
  exact (h3.append_left owner).trans h1

/-- The two output lists of `selectTiers` are, together, a permutation of
the whole signup table: every row receives exactly one status update. -/
theorem selectTiers_perm (shuffleH shuffleO : List Signup → List Signup)
    (hsh : ∀ l, List.Perm (shuffleH l) l) (hso : ∀ l, List.Perm (shuffleO l) l)
    (g : Game) (signups : List Signup) :
    List.Perm
      ((selectTiers shuffleH shuffleO g signups).1 ++
        (selectTiers shuffleH shuffleO g signups).2) signups := by
  have h1 : List.Perm
      (signups.filter (fun s => s.owner_added) ++
        signups.filter (fun s => !s.owner_added)) signups :=
    List.filter_append_perm _ _
  have h2 : List.Perm
      ((signups.filter (fun s => !s.owner_added)).filter
          (fun s => s.priority == Priority.high) ++
        (signups.filter (fun s => !s.owner_added)).filter
          (fun s => !(s.priority == Priority.high)))
      (signups.filter (fun s => !s.owner_added)) :=
    List.filter_append_perm _ _
  simp only [selectTiers]
  set cap : Int := if g.cap_enabled = true then g.cap else 999999 with hcapdef
  split
  · split
    · exact perm_branch1 h1 h2 (othersPhase_perm shuffleO hso _ _)
    · have hz := othersPhase_zero shuffleO hso
        ((signups.filter (fun s => !s.owner_added)).filter
          (fun s => !(s.priority == Priority.high)))
      rw [hz.1]
      exact perm_branch2 _ h1 h2 (hsh _) hz.2
  · exact perm_branch3 h1 (othersPhase_perm shuffleO hso _ _)

/-- Length bound on the admitted list: when the cap is enabled and the
owner-added rows do not already exceed it, at most `cap` rows are set
`'in'`. -/
theorem selectTiers_fst_length (shuffleH shuffleO : List Signup → List Signup)
    (g : Game) (signups : List Signup)
    (hcap : g.cap_enabled = true)
    (hown : ((signups.filter (fun s => s.owner_added)).length : Int) ≤ g.cap) :
    (((selectTiers shuffleH shuffleO g signups).1).length : Int) ≤ g.cap := by
  simp only [selectTiers]
  rw [if_pos hcap]
  split
  · split
    · rename_i hle
      have hp := othersPhase_fst_length shuffleO
        (g.cap - ((signups.filter (fun s => s.owner_added)).length : Int) -
          (((signups.filter (fun s => !s.owner_added)).filter
            (fun s => s.priority == Priority.high)).length : Int))
        ((signups.filter (fun s => !s.owner_added)).filter
          (fun s => !(s.priority == Priority.high)))
      simp only [List.length_append]
      omega
    · have hp := othersPhase_fst_length shuffleO 0
        ((signups.filter (fun s => !s.owner_added)).filter
          (fun s => !(s.priority == Priority.high)))
      simp only [List.length_append, List.length_take]
      omega
  · have hp := othersPhase_fst_length shuffleO
      (g.cap - ((signups.filter (fun s => s.owner_added)).length : Int))
      (signups.filter (fun s => !s.owner_added))
    simp only [List.length_append]
    omega

/-- Ids of the admitted and waitlisted lists are disjoint: they partition
a table whose primary keys are unique. -/
theorem ids_disjoint {signups ins wl : List Signup}
    (hperm : List.Perm (ins ++ wl) signups)
    (hnodup : (signups.map (fun s => s.id)).Nodup) :
    List.Disjoint (ins.map (fun s => s.id)) (wl.map (fun s => s.id)) := by
  have hnd : ((ins ++ wl).map (fun s => s.id)).Nodup :=
    (List.Perm.nodup_iff (hperm.map (fun s => s.id))).mpr hnodup
  rw [List.map_append, List.nodup_append] at hnd
  exact hnd.2.2

theorem updStatus_fields (ins wl : List Signup) (s : Signup) :
    (updStatus ins wl s).owner_added = s.owner_added ∧
      (updStatus ins wl s).priority = s.priority ∧
      (updStatus ins wl s).id = s.id ∧
      (updStatus ins wl s).player_id = s.player_id := by
  unfold updStatus
  split
  · exact ⟨rfl, rfl, rfl, rfl⟩
  · split
    · exact ⟨rfl, rfl, rfl, rfl⟩
    · exact ⟨rfl, rfl, rfl, rfl⟩

theorem updStatus_of_mem_wl {wl : List Signup} (ins : List Signup) {s : Signup}
    (hs : s ∈ wl) :
    updStatus ins wl s = { s with status := Status.waitlist } := by
  unfold updStatus
  rw [if_pos (List.any_eq_true.mpr ⟨s, hs, by simp⟩)]

theorem updStatus_of_mem_ins {signups ins wl : List Signup}
    (hperm : List.Perm (ins ++ wl) signups)
    (hnodup : (signups.map (fun s => s.id)).Nodup)
    {s : Signup} (hs : s ∈ ins) :
    updStatus ins wl s = { s with status := Status.inGame } := by
  have hdisj := ids_disjoint hperm hnodup
  unfold updStatus
  have hw : ¬ (wl.any (fun t => t.id == s.id) = true) := by
    intro hc
    obtain ⟨u, hu, hui⟩ := List.any_eq_true.mp hc
    rw [beq_iff_eq] at hui
    exact hdisj (List.mem_map.mpr ⟨s, hs, rfl⟩)
      (List.mem_map.mpr ⟨u, hu, hui⟩)
  rw [if_neg hw, if_pos (List.any_eq_true.mpr ⟨s, hs, by simp⟩)]

/-- Counting the admitted rows after the UPDATE replay: at most as many
rows end `'in'` as the engine put into its admitted list. -/
theorem countIn_applySelection_le (signups ins wl : List Signup)
    (hperm : List.Perm (ins ++ wl) signups)
    (hnodup : (signups.map (fun s => s.id)).Nodup) :
    countIn (applySelection signups ins wl) ≤ ins.length := by
  have hdisj := ids_disjoint hperm hnodup
  unfold countIn applySelection
  rw [List.countP_map]
  have hmono : ∀ s ∈ signups,
      ((fun s => s.status == Status.inGame) ∘ updStatus ins wl) s = true →
      (ins.any (fun t => t.id == s.id)) = true := by
    intro s hs h
    simp only [Function.comp] at h
    unfold updStatus at h
    by_cases hw : wl.any (fun t => t.id == s.id) = true
    · rw [if_pos hw] at h
      simp at h
    · rw [if_neg hw] at h
      by_cases hi : ins.any (fun t => t.id == s.id) = true
      · exact hi
      · rw [if_neg hi] at h
        have hmem : s ∈ ins ++ wl := hperm.mem_iff.mpr hs
        rcases List.mem_append.mp hmem with h1 | h2
        · exact absurd (List.any_eq_true.mpr ⟨s, h1, by simp⟩) hi
        · exact absurd (List.any_eq_true.mpr ⟨s, h2, by simp⟩) hw
  have hwl0 : List.countP (fun s => ins.any (fun t => t.id == s.id)) wl = 0 := by
    rw [List.countP_eq_zero]
    intro t ht hc
    obtain ⟨u, hu, hui⟩ := List.any_eq_true.mp hc
    rw [beq_iff_eq] at hui
    exact hdisj (List.mem_map.mpr ⟨u, hu, rfl⟩)
      (List.mem_map.mpr ⟨t, ht, hui.symm⟩)
  have step1 := List.countP_mono_left hmono
  have step2 : List.countP (fun s => ins.any (fun t => t.id == s.id)) signups =
      List.countP (fun s => ins.any (fun t => t.id == s.id)) ins +
      List.countP (fun s => ins.any (fun t => t.id == s.id)) wl := by
    rw [← List.countP_append]
    exact (hperm.countP_eq _).symm
  have step3 := List.countP_le_length
    (p := fun s => ins.any (fun t => t.id == s.id)) (l := ins)
  omega

/-- Owner-added rows always land in the admitted list of `selectTiers`. -/
theorem selectTiers_owner_mem (shuffleH shuffleO : List Signup → List Signup)
    (g : Game) (signups : List Signup) (s : Signup)
    (hs : s ∈ signups) (hoa : s.owner_added = true) :
    s ∈ (selectTiers shuffleH shuffleO g signups).1 := by
  have how : s ∈ signups.filter (fun s => s.owner_added) :=
    List.mem_filter.mpr ⟨hs, by simp [hoa]⟩
  simp only [selectTiers]
  set cap : Int := if g.cap_enabled = true then g.cap else 999999 with hcapdef
  split
  · split
    · exact List.mem_append_left _ (List.mem_append_left _ how)
    · exact List.mem_append_left _ (List.mem_append_left _ how)
  · exact List.mem_append_left _ how

/-- `_notify_priority_tier` only writes to `game_signups` when called for
the high tier: the auto-signup block is guarded by `priority == "high"`. -/
theorem notify_priority_tier_fst_ne_high (g : Game) (prio : Priority)
    (players : List Player) (already : List Nat) (signups : List Signup)
    (now nextId : Nat) (h : prio ≠ Priority.high) :
    (notify_priority_tier g prio players already signups now nextId).1 =
      signups := by
  simp only [notify_priority_tier]
  split
  · rfl
  · have hb : (prio == Priority.high) = false := by
      simp [h]
    simp [hb]

theorem countP_or_le {α : Type} (p q : α → Bool) (l : List α) :
    l.countP (fun a => p a || q a) ≤ l.countP p + l.countP q := by
  induction l with
  | nil => simp
  | cons a t ih =>
    simp only [List.countP_cons]
    by_cases hp : p a = true <;> by_cases hq : q a = true <;>
      simp [hp, hq] <;> omega

/-- In a table with unique primary keys, at most one row matches a given
id. -/
theorem countP_id_le_one (l : List Signup)
    (hnd : (l.map (fun s => s.id)).Nodup) (i : Nat) :
    l.countP (fun s => s.id == i) ≤ 1 := by
  induction l with
  | nil => simp
  | cons a t ih =>
    simp only [List.map_cons, List.nodup_cons] at hnd
    obtain ⟨hna, hnt⟩ := hnd
    simp only [List.countP_cons]
    by_cases ha : (a.id == i) = true
    · rw [beq_iff_eq] at ha
      have ht0 : t.countP (fun s => s.id == i) = 0 := by
        rw [List.countP_eq_zero]
        intro b hb hc
        rw [beq_iff_eq] at hc
        exact hna (List.mem_map.mpr ⟨b, hb, by rw [hc, ha]⟩)
      simp [ha, ht0]
    · have := ih hnt
      simp [ha]
      omega

/-- Splitting a count along a filter partition of the table. -/
theorem countP_filter_partition {α : Type} (p q : α → Bool) (l : List α) :
    l.countP p = (l.filter q).countP p + (l.filter (fun a => !q a)).countP p := by
  have hperm := List.filter_append_perm q l
  rw [← List.countP_append]
  exact (hperm.countP_eq p).symm

/-- C2: Cap invariant — for every game with cap_enabled whose owner-added
signups do not by themselves exceed cap, after the selection engine runs
the number of `'in'` signups is at most cap, and both the signup endpoint
and the drop endpoint (the consistency manager) preserve that bound.  The
`Nodup` hypotheses state that `game_signups.id` is a primary key; the
shuffle hypotheses state that `random.shuffle` permutes its list. -/
theorem c2_cap_invariant :
    (∀ (shuffleH shuffleO : List Signup → List Signup) (g : Game)
        (signups : List Signup),
      (∀ l, List.Perm (shuffleH l) l) → (∀ l, List.Perm (shuffleO l) l) →
      (signups.map (fun s => s.id)).Nodup →
      g.cap_enabled = true →
      (ownerAddedCount signups : Int) ≤ g.cap →
      (countIn (run_random_selection shuffleH shuffleO g signups).1 : Int) ≤ g.cap) ∧
    (∀ (g : Game) (signups : List Signup) (pid now nextId : Nat)
        (prio : Priority) (signups2 : List Signup),
      g.cap_enabled = true →
      (countIn signups : Int) ≤ g.cap →
      signup_for_game g signups pid now nextId prio = Except.ok signups2 →
      (countIn signups2 : Int) ≤ g.cap) ∧
    (∀ (g : Game) (signups : List Signup) (pid : Nat) (setting : String)
        (r : DropOutcome),
      (signups.map (fun s => s.id)).Nodup →
      (countIn signups : Int) ≤ g.cap →
      drop_from_game g signups pid setting = Except.ok r →
      (countIn r.signups : Int) ≤ g.cap) := by
  refine ⟨?_, ?_, ?_⟩
  · intro sh so g signups hsh hso hnodup hcap hown
    have hperm := selectTiers_perm sh so hsh hso g signups
    have hlen := selectTiers_fst_length sh so g signups hcap hown
    have hc := countIn_applySelection_le signups _ _ hperm hnodup
    simp only [run_random_selection]
    exact le_trans (by exact_mod_cast hc) hlen
  · intro g signups pid now nextId prio s2 hcap hle h
    unfold signup_for_game at h
    by_cases hcl : g.closed = true
    · rw [if_pos hcl] at h
      simp at h
    · rw [if_neg hcl] at h
      by_cases hdup : signups.any (fun s => s.player_id == pid) = true
      · rw [if_pos hdup] at h
        simp at h
      · rw [if_neg hdup] at h
        rw [Except.ok.injEq] at h
        subst h
        rw [if_pos hcap]
        by_cases hc1 : (g.algorithm == Algorithm.first_come && g.selection_done) = true
        · rw [if_pos hc1]
          by_cases hc2 : (countIn signups : Int) < g.cap
          · rw [if_pos hc2]
            unfold countIn at hle hc2 ⊢
            simp [List.countP_append, List.countP_cons]
            omega
          · rw [if_neg hc2]
            unfold countIn at hle ⊢
            simp [List.countP_append, List.countP_cons]
            omega
        · rw [if_neg hc1]
          unfold countIn at hle ⊢
          simp [List.countP_append, List.countP_cons]
          omega
  · intro g signups pid setting r hnodup hle h
    simp only [drop_from_game] at h
    have hpart := countP_filter_partition (fun s => s.status == Status.inGame)
      (fun s => s.player_id == pid) signups
    have hsub : (signups.filter (fun s => !(s.player_id == pid))).countP
        (fun s => s.status == Status.inGame) ≤ countIn signups := by
      unfold countIn
      omega
    split at h
    · simp at h
    · rename_i s0 hfind
      have hs0mem := List.mem_of_find?_eq_some hfind
      have hs0pid := List.find?_some hfind
      by_cases hin : (s0.status == Status.inGame) = true
      · rw [if_pos hin] at h
        have hdel : 1 ≤ (signups.filter (fun s => s.player_id == pid)).countP
            (fun s => s.status == Status.inGame) :=
          List.countP_pos_iff.mpr ⟨s0, List.mem_filter.mpr ⟨hs0mem, hs0pid⟩, hin⟩
        by_cases hc : (g.algorithm == Algorithm.first_come && g.selection_done) = true
        · rw [if_pos hc] at h
          cases hew : earliestWaitlist (signups.filter (fun s => !(s.player_id == pid))) with
          | none =>
            rw [hew] at h
            rw [Except.ok.injEq] at h
            subst h
            dsimp only
            unfold countIn at hle ⊢
            omega
          | some nu =>
            rw [hew] at h
            rw [Except.ok.injEq] at h
            subst h
            dsimp only
            -- count after the promotion map
            have hmap : countIn ((signups.filter (fun s => !(s.player_id == pid))).map
                (fun s => if s.id == nu.id then { s with status := Status.inGame } else s)) ≤
                (signups.filter (fun s => !(s.player_id == pid))).countP
                  (fun s => s.status == Status.inGame) + 1 := by
              unfold countIn
              rw [List.countP_map]
              have hmono : ∀ s ∈ signups.filter (fun s => !(s.player_id == pid)),
                  ((fun s => s.status == Status.inGame) ∘
                    (fun s => if s.id == nu.id then { s with status := Status.inGame } else s)) s = true →
                  (fun s => (s.status == Status.inGame) || (s.id == nu.id)) s = true := by
                intro s _ hs
                simp only [Function.comp] at hs
                by_cases hid : (s.id == nu.id) = true
                · simp [hid]
                · rw [if_neg hid] at hs
                  simp [hs]
              have h1 := List.countP_mono_left hmono
              have h2 := countP_or_le (fun s => s.status == Status.inGame)
                (fun s => s.id == nu.id) (signups.filter (fun s => !(s.player_id == pid)))
              have hnd2 : ((signups.filter (fun s => !(s.player_id == pid))).map
                  (fun s => s.id)).Nodup := by
                have hsubl : List.Sublist
                    ((signups.filter (fun s => !(s.player_id == pid))).map
                      (fun s => s.id)) (signups.map (fun s => s.id)) :=
                  (List.filter_sublist signups).map _
                exact hnodup.sublist hsubl
              have h3 := countP_id_le_one _ hnd2 nu.id
              omega
            unfold countIn at hle hmap ⊢
            omega
        · rw [if_neg hc] at h
          rw [Except.ok.injEq] at h
          subst h
          dsimp only
          unfold countIn at hle ⊢
          omega
      · rw [if_neg hin] at h
        rw [Except.ok.injEq] at h
        subst h
        dsimp only
        unfold countIn at hle ⊢
        omega

/-- C3: Owner-added precedence — every owner-added signup ends the
selection with status `'in'`, regardless of cap, tier or how many
owner-added rows exist. -/
theorem c3_owner_added_precedence
    (shuffleH shuffleO : List Signup → List Signup) (g : Game)
    (signups : List Signup)
    (hsh : ∀ l, List.Perm (shuffleH l) l) (hso : ∀ l, List.Perm (shuffleO l) l)
    (hnodup : (signups.map (fun s => s.id)).Nodup) :
    ∀ t ∈ (run_random_selection shuffleH shuffleO g signups).1,
      t.owner_added = true → t.status = Status.inGame := by
  intro t ht hoa
  have hperm := selectTiers_perm shuffleH shuffleO hsh hso g signups
  simp only [run_random_selection, applySelection] at ht
  obtain ⟨s, hs, rfl⟩ := List.mem_map.mp ht
  have hoa' : s.owner_added = true := by
    have hf := (updStatus_fields (selectTiers shuffleH shuffleO g signups).1
      (selectTiers shuffleH shuffleO g signups).2 s).1
    rw [hf] at hoa
    exact hoa
  have hmem := selectTiers_owner_mem shuffleH shuffleO g signups s hs hoa'
  rw [updStatus_of_mem_ins hperm hnodup hmem]

/-- Witness for C3 at a concrete overbooked game (cap 2, two owner-added
rows plus one ordinary row): the owner-added row with id 1 is in the
result and the theorem forces its status to `'in'`. -/
theorem c3_owner_added_precedence_witness :
    (⟨1, 4, 0, Status.inGame, true, Priority.standard⟩ : Signup) ∈
      (run_random_selection id id
        ⟨2, true, Algorithm.random, Phase.signup, false, false, true⟩
        [⟨1, 4, 0, Status.pending, true, Priority.standard⟩,
         ⟨2, 5, 1, Status.pending, false, Priority.standard⟩,
         ⟨3, 6, 2, Status.pending, true, Priority.low⟩]).1 ∧
    Signup.status ⟨1, 4, 0, Status.inGame, true, Priority.standard⟩ =
      Status.inGame :=
  ⟨by decide,
   c3_owner_added_precedence id id
     ⟨2, true, Algorithm.random, Phase.signup, false, false, true⟩
     [⟨1, 4, 0, Status.pending, true, Priority.standard⟩,
      ⟨2, 5, 1, Status.pending, false, Priority.standard⟩,
      ⟨3, 6, 2, Status.pending, true, Priority.low⟩]
     (fun l => List.Perm.refl l) (fun l => List.Perm.refl l) (by decide)
     ⟨1, 4, 0, Status.inGame, true, Priority.standard⟩ (by decide) rfl⟩

/-- When the owner-added rows already exhaust the cap (`available ≤ 0`),
every non-owner high-priority row lands in the waitlist list of
`selectTiers`: the branch `len(high) <= available` is false and
`take available.toNat` takes nothing. -/
theorem selectTiers_high_overbooked_mem
    (shuffleH shuffleO : List Signup → List Signup) (g : Game)
    (signups : List Signup)
    (hsh : ∀ l, List.Perm (shuffleH l) l)
    (hha : g.random_high_auto = true) (hcap : g.cap_enabled = true)
    (hover : g.cap ≤ ((signups.filter (fun s => s.owner_added)).length : Int))
    (s : Signup) (hs : s ∈ signups) (hoa : s.owner_added = false)
    (hpr : s.priority = Priority.high) :
    s ∈ (selectTiers shuffleH shuffleO g signups).2 := by
  have hrem : s ∈ signups.filter (fun s => !s.owner_added) :=
    List.mem_filter.mpr ⟨hs, by simp [hoa]⟩
  have hhigh : s ∈ (signups.filter (fun s => !s.owner_added)).filter
      (fun s => s.priority == Priority.high) :=
    List.mem_filter.mpr ⟨hrem, by simp [hpr]⟩
  have hlen1 : 1 ≤ ((signups.filter (fun s => !s.owner_added)).filter
      (fun s => s.priority == Priority.high)).length :=
    List.length_pos.mpr (List.ne_nil_of_mem hhigh)
  simp only [selectTiers]
  rw [if_pos hcap, if_pos hha]
  have hcond : ¬ ((((signups.filter (fun s => !s.owner_added)).filter
      (fun s => s.priority == Priority.high)).length : Int) ≤
      g.cap - ((signups.filter (fun s => s.owner_added)).length : Int)) := by
    omega
  rw [if_neg hcond]
  have ht : (g.cap -
      ((signups.filter (fun s => s.owner_added)).length : Int)).toNat = 0 := by
    omega
  rw [ht, List.drop_zero]
  exact List.mem_append_left _ ((hsh _).mem_iff.mpr hhigh)

/-- C4: zero-admit high-tier edge case — with `random_high_auto` and
`available ≤ 0` when the high tier is processed (owner-added rows at or
above cap), every non-owner high-priority signup ends waitlisted and none
is admitted. -/
theorem c4_zero_admit_high_tier
    (shuffleH shuffleO : List Signup → List Signup) (g : Game)
    (signups : List Signup)
    (hsh : ∀ l, List.Perm (shuffleH l) l)
    (hha : g.random_high_auto = true) (hcap : g.cap_enabled = true)
    (hover : g.cap ≤ (ownerAddedCount signups : Int)) :
    ∀ t ∈ (run_random_selection shuffleH shuffleO g signups).1,
      t.owner_added = false → t.priority = Priority.high →
      t.status = Status.waitlist := by
  intro t ht hoa hpr
  simp only [run_random_selection, applySelection] at ht
  obtain ⟨s, hs, rfl⟩ := List.mem_map.mp ht
  obtain ⟨hf1, hf2, -, -⟩ := updStatus_fields
    (selectTiers shuffleH shuffleO g signups).1
    (selectTiers shuffleH shuffleO g signups).2 s
  rw [hf1] at hoa
  rw [hf2] at hpr
  have hmem := selectTiers_high_overbooked_mem shuffleH shuffleO g signups hsh
    hha hcap (by simpa [ownerAddedCount] using hover) s hs hoa hpr
  rw [updStatus_of_mem_wl _ hmem]

/-- Witness for C4 at the spec's own example: cap 5, six owner-added
signups, three high-priority signups — the high-priority row with id 7
is in the result and the theorem forces its status to waitlist. -/
theorem c4_zero_admit_high_tier_witness :
    (⟨7, 7, 1, Status.waitlist, false, Priority.high⟩ : Signup) ∈
      (run_random_selection id id
        ⟨5, true, Algorithm.random, Phase.signup, false, false, true⟩
        [⟨1, 1, 0, Status.pending, true, Priority.standard⟩,
         ⟨2, 2, 0, Status.pending, true, Priority.standard⟩,
         ⟨3, 3, 0, Status.pending, true, Priority.standard⟩,
         ⟨4, 4, 0, Status.pending, true, Priority.standard⟩,
         ⟨5, 5, 0, Status.pending, true, Priority.standard⟩,
         ⟨6, 6, 0, Status.pending, true, Priority.standard⟩,
         ⟨7, 7, 1, Status.pending, false, Priority.high⟩,
         ⟨8, 8, 2, Status.pending, false, Priority.high⟩,
         ⟨9, 9, 3, Status.pending, false, Priority.high⟩]).1 ∧
    Signup.status ⟨7, 7, 1, Status.waitlist, false, Priority.high⟩ =
      Status.waitlist :=
  ⟨by decide,
   c4_zero_admit_high_tier id id
     ⟨5, true, Algorithm.random, Phase.signup, false, false, true⟩
     [⟨1, 1, 0, Status.pending, true, Priority.standard⟩,
      ⟨2, 2, 0, Status.pending, true, Priority.standard⟩,
      ⟨3, 3, 0, Status.pending, true, Priority.standard⟩,
      ⟨4, 4, 0, Status.pending, true, Priority.standard⟩,
      ⟨5, 5, 0, Status.pending, true, Priority.standard⟩,
      ⟨6, 6, 0, Status.pending, true, Priority.standard⟩,
      ⟨7, 7, 1, Status.pending, false, Priority.high⟩,
      ⟨8, 8, 2, Status.pending, false, Priority.high⟩,
      ⟨9, 9, 3, Status.pending, false, Priority.high⟩]
     (fun l => List.Perm.refl l) rfl rfl (by decide)
     ⟨7, 7, 1, Status.waitlist, false, Priority.high⟩ (by decide) rfl rfl⟩

/-- Witness for C2: all three conjuncts applied at concrete states — a
random selection under cap 3, a first-come signup under cap 2, and a
first-come drop with promotion under cap 1. -/
theorem c2_cap_invariant_witness :
    ((countIn (run_random_selection id id
      ⟨3, true, Algorithm.random, Phase.signup, false, false, true⟩
      [⟨1, 1, 0, Status.pending, true, Priority.standard⟩,
       ⟨2, 2, 1, Status.pending, false, Priority.high⟩,
       ⟨3, 3, 2, Status.pending, false, Priority.standard⟩,
       ⟨4, 4, 3, Status.pending, false, Priority.standard⟩]).1 : Int) ≤ 3) ∧
    ((countIn ([⟨1, 1, 0, Status.inGame, false, Priority.standard⟩,
       ⟨4, 9, 10, Status.inGame, false, Priority.standard⟩] : List Signup) : Int) ≤ 2) ∧
    ((countIn (DropOutcome.signups
      ⟨[⟨2, 2, 5, Status.inGame, false, Priority.standard⟩], some 2, some 2, true⟩) : Int) ≤ 1) :=
  ⟨c2_cap_invariant.1 id id
      ⟨3, true, Algorithm.random, Phase.signup, false, false, true⟩ _
      (fun l => List.Perm.refl l) (fun l => List.Perm.refl l)
      (by decide) rfl (by decide),
   c2_cap_invariant.2.1
      ⟨2, true, Algorithm.first_come, Phase.active, true, false, true⟩
      [⟨1, 1, 0, Status.inGame, false, Priority.standard⟩] 9 10 4
      Priority.standard _ rfl (by decide) rfl,
   c2_cap_invariant.2.2
      ⟨1, true, Algorithm.first_come, Phase.active, true, false, true⟩
      [⟨1, 1, 0, Status.inGame, false, Priority.standard⟩,
       ⟨2, 2, 5, Status.waitlist, false, Priority.standard⟩] 1 "1" _
      (by decide) (by decide) rfl⟩

/-- C7: notify_low capacity skip — with the game open, if the cap is
enabled and reached the job completes without notifying the low tier and
without touching `phase`; otherwise the low tier is notified and `phase`
becomes `notifying_low`. -/
theorem c7_notify_low_capacity_skip
    (shuffleH shuffleO : List Signup → List Signup) (g : Game)
    (signups : List Signup) (players : List Player) (already : List Nat)
    (now nextId : Nat) (hopen : g.closed = false) :
    (g.cap_enabled = true → g.cap ≤ (countIn signups : Int) →
      execute_job shuffleH shuffleO JobType.notify_low g signups players
        already now nextId = ⟨g, signups, JobStatus.completed, none⟩) ∧
    (g.cap_enabled = false ∨ (countIn signups : Int) < g.cap →
      execute_job shuffleH shuffleO JobType.notify_low g signups players
        already now nextId =
        ⟨{ g with phase := Phase.notifying_low }, signups,
          JobStatus.completed, some Priority.low⟩) := by
  constructor
  · intro hc hfull
    have hspots : check_spots_open g signups = false := by
      unfold check_spots_open
      rw [hc]
      simp only [Bool.not_true, Bool.false_eq_true, if_false]
      simp only [decide_eq_false_iff_not, not_lt]
      exact hfull
    unfold execute_job
    rw [if_neg (by simp [hopen])]
    rw [if_neg (by simp [hspots])]
  · intro hcases
    have hspots : check_spots_open g signups = true := by
      unfold check_spots_open
      rcases hcases with hc | hlt
      · rw [hc]
        simp
      · split
        · rfl
        · simp only [decide_eq_true_eq]
          exact hlt
    have hnt := notify_priority_tier_fst_ne_high g Priority.low players
      already signups now nextId (by decide)
    conv_rhs => rw [← hnt]
    unfold execute_job
    rw [if_neg (by simp [hopen]), if_pos hspots]

/-- Witness for C7: a full cap-2 game skips the low notification, an open
game notifies and advances the phase. -/
theorem c7_notify_low_capacity_skip_witness :
    (execute_job id id JobType.notify_low
      ⟨2, true, Algorithm.random, Phase.notifying_standard, false, false, true⟩
      [⟨1, 1, 0, Status.inGame, false, Priority.standard⟩,
       ⟨2, 2, 1, Status.inGame, false, Priority.standard⟩] [] [] 0 3 =
      ⟨⟨2, true, Algorithm.random, Phase.notifying_standard, false, false, true⟩,
       [⟨1, 1, 0, Status.inGame, false, Priority.standard⟩,
        ⟨2, 2, 1, Status.inGame, false, Priority.standard⟩],
       JobStatus.completed, none⟩) ∧
    (execute_job id id JobType.notify_low
      ⟨2, true, Algorithm.random, Phase.notifying_standard, false, false, true⟩
      [⟨1, 1, 0, Status.inGame, false, Priority.standard⟩] [] [] 0 3 =
      ⟨⟨2, true, Algorithm.random, Phase.notifying_low, false, false, true⟩,
       [⟨1, 1, 0, Status.inGame, false, Priority.standard⟩],
       JobStatus.completed, some Priority.low⟩) :=
  ⟨(c7_notify_low_capacity_skip id id _ _ [] [] 0 3 rfl).1 rfl (by decide),
   (c7_notify_low_capacity_skip id id _ _ [] [] 0 3 rfl).2 (Or.inr (by decide))⟩

theorem foldl_earliestStep_mem :
    ∀ (l : List Signup) (acc : Option Signup) (b : Signup),
      l.foldl earliestStep acc = some b → acc = some b ∨ b ∈ l := by
  intro l
  induction l with
  | nil => intro acc b h; exact Or.inl h
  | cons s t ih =>
    intro acc b h
    rcases ih (earliestStep acc s) b h with h1 | h2
    · cases acc with
      | none =>
        simp only [earliestStep] at h1
        rw [Option.some.injEq] at h1
        exact Or.inr (h1 ▸ List.mem_cons_self s t)
      | some a =>
        simp only [earliestStep] at h1
        by_cases hlt : s.signed_up_at < a.signed_up_at
        · rw [if_pos hlt, Option.some.injEq] at h1
          exact Or.inr (h1 ▸ List.mem_cons_self s t)
        · rw [if_neg hlt] at h1
          exact Or.inl h1
    · exact Or.inr (List.mem_cons_of_mem s h2)

theorem foldl_earliestStep_min :
    ∀ (l : List Signup) (acc : Option Signup) (b : Signup),
      l.foldl earliestStep acc = some b →
      (∀ a, acc = some a → b.signed_up_at ≤ a.signed_up_at) ∧
      (∀ w ∈ l, b.signed_up_at ≤ w.signed_up_at) := by
  intro l
  induction l with
  | nil =>
    intro acc b h
    simp only [List.foldl_nil] at h
    refine ⟨?_, by simp⟩
    intro a ha
    rw [h, Option.some.injEq] at ha
    rw [ha]
  | cons s t ih =>
    intro acc b h
    obtain ⟨h1, h2⟩ := ih (earliestStep acc s) b h
    constructor
    · intro a ha
      subst ha
      simp only [earliestStep] at h1
      by_cases hlt : s.signed_up_at < a.signed_up_at
      · have hbs := h1 s (by rw [if_pos hlt])
        omega
      · exact h1 a (by rw [if_neg hlt])
    · intro w hw
      rcases List.mem_cons.mp hw with rfl | hw2
      · cases acc with
        | none => exact h1 w (by simp [earliestStep])
        | some a =>
          simp only [earliestStep] at h1
          by_cases hlt : w.signed_up_at < a.signed_up_at
          · exact h1 w (by rw [if_pos hlt])
          · have hba := h1 a (by rw [if_neg hlt])
            omega
      · exact h2 w hw2

theorem foldl_earliestStep_isSome :
    ∀ (l : List Signup) (a : Signup),
      ∃ b, l.foldl earliestStep (some a) = some b := by
  intro l
  induction l with
  | nil => intro a; exact ⟨a, rfl⟩
  | cons s t ih =>
    intro a
    rw [List.foldl_cons]
    by_cases hlt : s.signed_up_at < a.signed_up_at
    · simpa [earliestStep, hlt] using ih s
    · simpa [earliestStep, hlt] using ih a

/-- The row returned by `ORDER BY signed_up_at ASC LIMIT 1` over the
waitlist: it is a waitlisted row of the table and no waitlisted row signed
up strictly earlier. -/
theorem earliestWaitlist_spec (l : List Signup) (nu : Signup)
    (h : earliestWaitlist l = some nu) :
    nu ∈ l ∧ nu.status = Status.waitlist ∧
      ∀ w ∈ l, w.status = Status.waitlist →
        nu.signed_up_at ≤ w.signed_up_at := by
  unfold earliestWaitlist at h
  rcases foldl_earliestStep_mem _ _ _ h with hacc | hmem
  · cases hacc
  · obtain ⟨hl, hst⟩ := List.mem_filter.mp hmem
    have hmin := (foldl_earliestStep_min _ _ _ h).2
    refine ⟨hl, by simpa using hst, ?_⟩
    intro w hw hwst
    exact hmin w (List.mem_filter.mpr ⟨hw, by simp [hwst]⟩)

/-- When some waitlisted row exists, the query returns a row. -/
theorem earliestWaitlist_isSome (l : List Signup) (w : Signup)
    (hw : w ∈ l) (hst : w.status = Status.waitlist) :
    ∃ nu, earliestWaitlist l = some nu := by
  unfold earliestWaitlist
  have hmem : w ∈ l.filter (fun s => s.status == Status.waitlist) :=
    List.mem_filter.mpr ⟨hw, by simp [hst]⟩
  obtain ⟨x, t, he⟩ : ∃ x t,
      l.filter (fun s => s.status == Status.waitlist) = x :: t := by
    cases hfe : l.filter (fun s => s.status == Status.waitlist) with
    | nil => rw [hfe] at hmem; cases hmem
    | cons x t => exact ⟨x, t, rfl⟩
  rw [he, List.foldl_cons]
  exact foldl_earliestStep_isSome t x

/-- C6: Waitlist FIFO promotion — dropping an `'in'` signup from a
first_come game with selection_done promotes the earliest-`signed_up_at`
waitlisted row to `'in'` and leaves every other remaining row untouched. -/
theorem c6_waitlist_fifo_promotion (g : Game) (signups : List Signup)
    (pid : Nat) (setting : String) (s0 nu : Signup)
    (halg : g.algorithm = Algorithm.first_come)
    (hdone : g.selection_done = true)
    (hfind : signups.find? (fun s => s.player_id == pid) = some s0)
    (hin : s0.status = Status.inGame)
    (hew : earliestWaitlist (signups.filter (fun s => !(s.player_id == pid))) =
      some nu) :
    ∃ r, drop_from_game g signups pid setting = Except.ok r ∧
      r.promotedId = some nu.id ∧
      nu.status = Status.waitlist ∧
      (∀ w ∈ signups.filter (fun s => !(s.player_id == pid)),
        w.status = Status.waitlist → nu.signed_up_at ≤ w.signed_up_at) ∧
      r.signups = (signups.filter (fun s => !(s.player_id == pid))).map
        (fun s => if s.id == nu.id then { s with status := Status.inGame }
          else s) ∧
      (∀ w ∈ signups.filter (fun s => !(s.player_id == pid)),
        w.id ≠ nu.id → w ∈ r.signups) := by
  obtain ⟨hmem, hst, hmin⟩ := earliestWaitlist_spec _ _ hew
  refine ⟨⟨(signups.filter (fun s => !(s.player_id == pid))).map
      (fun s => if s.id == nu.id then { s with status := Status.inGame }
        else s), some nu.id, some nu.player_id, setting != "0"⟩,
    ?_, rfl, hst, hmin, rfl, ?_⟩
  · simp only [drop_from_game]
    rw [hfind]
    simp [hin, halg, hdone, hew]
  · intro w hw hne
    refine List.mem_map.mpr ⟨w, hw, ?_⟩
    rw [if_neg (by simpa using hne)]

/-- Witness for C6: drop the `'in'` player from a concrete first_come
game; the earliest of the two waitlisted rows (timestamp 3) is promoted. -/
theorem c6_waitlist_fifo_promotion_witness :
    ∃ r, drop_from_game
      ⟨2, true, Algorithm.first_come, Phase.active, true, false, true⟩
      [⟨1, 1, 0, Status.inGame, false, Priority.standard⟩,
       ⟨2, 2, 5, Status.waitlist, false, Priority.standard⟩,
       ⟨3, 3, 3, Status.waitlist, false, Priority.standard⟩] 1 "1" =
      Except.ok r ∧
      r.promotedId = some 3 ∧
      (⟨3, 3, 3, Status.waitlist, false, Priority.standard⟩ : Signup).status =
        Status.waitlist ∧
      (∀ w ∈ ([⟨1, 1, 0, Status.inGame, false, Priority.standard⟩,
         ⟨2, 2, 5, Status.waitlist, false, Priority.standard⟩,
         ⟨3, 3, 3, Status.waitlist, false, Priority.standard⟩] : List Signup).filter
           (fun s => !(s.player_id == 1)),
        w.status = Status.waitlist → 3 ≤ w.signed_up_at) ∧
      r.signups = (([⟨1, 1, 0, Status.inGame, false, Priority.standard⟩,
         ⟨2, 2, 5, Status.waitlist, false, Priority.standard⟩,
         ⟨3, 3, 3, Status.waitlist, false, Priority.standard⟩] : List Signup).filter
           (fun s => !(s.player_id == 1))).map
        (fun s => if s.id == 3 then { s with status := Status.inGame } else s) ∧
      (∀ w ∈ ([⟨1, 1, 0, Status.inGame, false, Priority.standard⟩,
         ⟨2, 2, 5, Status.waitlist, false, Priority.standard⟩,
         ⟨3, 3, 3, Status.waitlist, false, Priority.standard⟩] : List Signup).filter
           (fun s => !(s.player_id == 1)),
        w.id ≠ 3 → w ∈ r.signups) :=
  c6_waitlist_fifo_promotion _ _ 1 "1"
    ⟨1, 1, 0, Status.inGame, false, Priority.standard⟩
    ⟨3, 3, 3, Status.waitlist, false, Priority.standard⟩
    rfl rfl (by decide) rfl (by decide)

/-- C10: for games whose algorithm is not first_come (e.g. a random game
after selection), a drop never promotes anyone: the dropping player's
rows are removed and every other row is returned verbatim. -/
theorem c10_drop_no_promotion_non_first_come (g : Game)
    (signups : List Signup) (pid : Nat) (setting : String) (r : DropOutcome)
    (halg : g.algorithm ≠ Algorithm.first_come)
    (h : drop_from_game g signups pid setting = Except.ok r) :
    r.promotedId = none ∧ r.promotedPlayer = none ∧
      r.signups = signups.filter (fun s => !(s.player_id == pid)) ∧
      ∀ s ∈ signups, s.player_id ≠ pid → s ∈ r.signups := by
  simp only [drop_from_game] at h
  have hcf : (g.algorithm == Algorithm.first_come && g.selection_done) = false := by
    simp [halg]
  split at h
  · simp at h
  · rename_i s0 hfind
    by_cases hin : (s0.status == Status.inGame) = true
    · rw [if_pos hin, hcf] at h
      simp only [Bool.false_eq_true, if_false] at h
      rw [Except.ok.injEq] at h
      subst h
      refine ⟨rfl, rfl, rfl, ?_⟩
      intro s hs hne
      exact List.mem_filter.mpr ⟨hs, by simpa using hne⟩
    · rw [if_neg hin] at h
      rw [Except.ok.injEq] at h
      subst h
      refine ⟨rfl, rfl, rfl, ?_⟩
      intro s hs hne
      exact List.mem_filter.mpr ⟨hs, by simpa using hne⟩

/-- Witness for C10: dropping the `'in'` player from a random,
selection-done game removes only that row; the waitlisted row stays
waitlisted. -/
theorem c10_drop_no_promotion_non_first_come_witness :
    (DropOutcome.promotedId
      ⟨[⟨2, 2, 5, Status.waitlist, false, Priority.standard⟩], none, none, true⟩ = none) ∧
    (DropOutcome.promotedPlayer
      ⟨[⟨2, 2, 5, Status.waitlist, false, Priority.standard⟩], none, none, true⟩ = none) ∧
    (DropOutcome.signups
      ⟨[⟨2, 2, 5, Status.waitlist, false, Priority.standard⟩], none, none, true⟩ =
      ([⟨1, 1, 0, Status.inGame, false, Priority.standard⟩,
        ⟨2, 2, 5, Status.waitlist, false, Priority.standard⟩] : List Signup).filter
        (fun s => !(s.player_id == 1))) ∧
    (∀ s ∈ ([⟨1, 1, 0, Status.inGame, false, Priority.standard⟩,
        ⟨2, 2, 5, Status.waitlist, false, Priority.standard⟩] : List Signup),
      s.player_id ≠ 1 → s ∈ DropOutcome.signups
        ⟨[⟨2, 2, 5, Status.waitlist, false, Priority.standard⟩], none, none, true⟩) :=
  c10_drop_no_promotion_non_first_come
    ⟨12, true, Algorithm.random, Phase.active, true, false, true⟩
    [⟨1, 1, 0, Status.inGame, false, Priority.standard⟩,
     ⟨2, 2, 5, Status.waitlist, false, Priority.standard⟩] 1 "1" _
    (by decide) rfl

/-- C9 counterexample: the drop-notification decision reads neither the
clock nor `signed_up_at`.  A player signed up at timestamp 0 and one
signed up at timestamp 1000000 are dropped with identical outcomes —
organizers are notified in both, so a sign-up-then-drop with zero elapsed
time (below any positive threshold) still notifies. -/
theorem c9_counterexample_no_threshold :
    (drop_from_game ⟨10, true, Algorithm.random, Phase.active, true, false, true⟩
      [⟨1, 7, 0, Status.inGame, false, Priority.standard⟩] 7 "1" =
      Except.ok ⟨[], none, none, true⟩) ∧
    (drop_from_game ⟨10, true, Algorithm.random, Phase.active, true, false, true⟩
      [⟨1, 7, 1000000, Status.inGame, false, Priority.standard⟩] 7 "1" =
      Except.ok ⟨[], none, none, true⟩) := by
  constructor <;> rfl

/-- C9 amended: organizers are notified of a drop exactly when the
dropped signup's prior status was `'in'` and the group's
`notify_owner_player_drop` setting is not `"0"` — elapsed time since the
original signup plays no role. -/
theorem c9_amended_drop_notification (g : Game) (signups : List Signup)
    (pid : Nat) (setting : String) (s0 : Signup)
    (hfind : signups.find? (fun s => s.player_id == pid) = some s0) :
    ∃ r, drop_from_game g signups pid setting = Except.ok r ∧
      (r.organizersNotified = true ↔
        (s0.status = Status.inGame ∧ setting ≠ "0")) := by
  simp only [drop_from_game]
  rw [hfind]
  by_cases hin : s0.status = Status.inGame
  · simp only [hin]
    refine ⟨_, rfl, ?_⟩
    simp [bne_iff_ne]
  · have hb : (s0.status == Status.inGame) = false := by
      simpa using hin
    simp only [hb, Bool.false_eq_true, if_false]
    exact ⟨_, rfl, by simp [hin]⟩

/-- Witness for C9 amended: a concrete `'in'` drop with the setting
enabled notifies the organizers. -/
theorem c9_amended_drop_notification_witness :
    ∃ r, drop_from_game
      ⟨10, true, Algorithm.weighted, Phase.active, false, false, true⟩
      [⟨1, 8, 3, Status.inGame, false, Priority.low⟩] 8 "1" =
      Except.ok r ∧
      (r.organizersNotified = true ↔
        ((⟨1, 8, 3, Status.inGame, false, Priority.low⟩ : Signup).status =
          Status.inGame ∧ ("1" : String) ≠ "0")) :=
  c9_amended_drop_notification _ _ 8 "1"
    ⟨1, 8, 3, Status.inGame, false, Priority.low⟩ rfl

/-- `INSERT OR IGNORE` never deletes or rewrites rows: everything already
in the table survives the auto-signup loop unchanged. -/
theorem autoSignupAll_preserves (now : Nat) :
    ∀ (pids : List Nat) (signups : List Signup) (nextId : Nat) (s : Signup),
      s ∈ signups → s ∈ autoSignupAll now signups nextId pids := by
  intro pids
  induction pids with
  | nil => intro signups nextId s hs; exact hs
  | cons p rest ih =>
    intro signups nextId s hs
    simp only [autoSignupAll]
    split
    · exact ih _ _ _ hs
    · exact ih _ _ _ (List.mem_append_left _ hs)

/-- Every id fed to the auto-signup loop ends up with some row: either a
row that was already in the table (left intact by INSERT OR IGNORE), or a
freshly inserted `(status = pending, owner_added = 1)` row. -/
theorem autoSignupAll_covers (now : Nat) :
    ∀ (pids : List Nat) (signups : List Signup) (nextId : Nat) (pid : Nat),
      pid ∈ pids →
      ∃ r ∈ autoSignupAll now signups nextId pids, r.player_id = pid ∧
        (r ∈ signups ∨ (r.status = Status.pending ∧ r.owner_added = true)) := by
  intro pids
  induction pids with
  | nil => intro _ _ _ hp; cases hp
  | cons p rest ih =>
    intro signups nextId pid hp
    simp only [autoSignupAll]
    rcases List.mem_cons.mp hp with rfl | hrest
    · split
      · rename_i hany
        obtain ⟨s, hs, hsp⟩ := List.any_eq_true.mp hany
        rw [beq_iff_eq] at hsp
        exact ⟨s, autoSignupAll_preserves now rest _ _ s hs, hsp, Or.inl hs⟩
      · refine ⟨⟨nextId, pid, now, Status.pending, true, Priority.high⟩,
          autoSignupAll_preserves now rest _ _ _
            (List.mem_append_right _ (List.mem_singleton_self _)),
          rfl, Or.inr ⟨rfl, rfl⟩⟩
    · split
      · exact ih _ _ _ hrest
      · obtain ⟨r, hr, hrp, hcase⟩ := ih
          (signups ++ [⟨nextId, p, now, Status.pending, true, Priority.high⟩])
          (nextId + 1) pid hrest
        refine ⟨r, hr, hrp, ?_⟩
        rcases hcase with hmem | hnew
        · rcases List.mem_append.mp hmem with h1 | h2
          · exact Or.inl h1
          · rw [List.mem_singleton] at h2
            subst h2
            exact Or.inr ⟨rfl, rfl⟩
        · exact Or.inr hnew

/-- C5 counterexample: an approved high-priority player (id 5) who
already has a signup row (status waitlist, owner_added false) is notified
by the high tier of a random / random_high_auto game, yet the INSERT OR
IGNORE leaves the old row untouched: after notification no row of player
5 has `status = pending, owner_added = true`. -/
theorem c5_counterexample_existing_row_not_upgraded :
    (notify_priority_tier
      ⟨10, true, Algorithm.random, Phase.notifying_high, false, false, true⟩
      Priority.high [⟨5, true, Priority.high⟩] []
      [⟨1, 5, 0, Status.waitlist, false, Priority.high⟩] 10 2 =
      ([⟨1, 5, 0, Status.waitlist, false, Priority.high⟩], [5])) ∧
    ¬ ∃ r ∈ (notify_priority_tier
      ⟨10, true, Algorithm.random, Phase.notifying_high, false, false, true⟩
      Priority.high [⟨5, true, Priority.high⟩] []
      [⟨1, 5, 0, Status.waitlist, false, Priority.high⟩] 10 2).1,
        r.player_id = 5 ∧ r.status = Status.pending ∧ r.owner_added = true := by
  constructor
  · rfl
  · decide

/-- C5 amended: on both notification paths of a random game with
random_high_auto, every notified high-priority player **without an
existing signup row** gets a fresh `(pending, owner_added)` row, and
every pre-existing row survives unchanged (so already-signed-up players
are NOT upgraded). -/
theorem c5_amended_high_auto_signup (g : Game) (players : List Player)
    (already : List Nat) (signups : List Signup) (now nextId : Nat)
    (halg : g.algorithm = Algorithm.random)
    (hauto : g.random_high_auto = true) :
    (∀ pid ∈ (notify_priority_tier g Priority.high players already signups
        now nextId).2,
      (∀ s ∈ signups, s.player_id ≠ pid) →
      ∃ r ∈ (notify_priority_tier g Priority.high players already signups
          now nextId).1,
        r.player_id = pid ∧ r.status = Status.pending ∧
          r.owner_added = true) ∧
    (∀ s ∈ signups, s ∈ (notify_priority_tier g Priority.high players
        already signups now nextId).1) ∧
    (∀ p ∈ players, p.approved = true → p.priority = Priority.high →
      (∀ s ∈ signups, s.player_id ≠ p.id) →
      ∃ r ∈ immediateHighAutoSignup g players signups now nextId,
        r.player_id = p.id ∧ r.status = Status.pending ∧
          r.owner_added = true) ∧
    (∀ s ∈ signups, s ∈ immediateHighAutoSignup g players signups now
      nextId) := by
  have hguard : (Priority.high == Priority.high &&
      g.algorithm == Algorithm.random && g.random_high_auto) = true := by
    simp [halg, hauto]
  have hguard2 : (g.algorithm == Algorithm.random &&
      g.random_high_auto) = true := by
    simp [halg, hauto]
  refine ⟨?_, ?_, ?_, ?_⟩
  · intro pid hpid hfresh
    simp only [notify_priority_tier] at hpid ⊢
    split at hpid
    · cases hpid
    · rename_i hne
      rw [if_neg hne, if_pos hguard]
      obtain ⟨r, hr, hrp, hcase⟩ :=
        autoSignupAll_covers now _ signups nextId pid hpid
      refine ⟨r, hr, hrp, ?_⟩
      rcases hcase with hmem | hnew
      · exact absurd hrp (hfresh r hmem)
      · exact hnew
  · intro s hs
    simp only [notify_priority_tier]
    split <;>
      first
        | exact hs
        | exact autoSignupAll_preserves now _ _ _ _ hs
  · intro p hp happ hpr hfresh
    have hhigh : p ∈ players.filter
        (fun p => p.approved && p.priority == Priority.high) :=
      List.mem_filter.mpr ⟨hp, by simp [happ, hpr]⟩
    simp only [immediateHighAutoSignup]
    rw [if_neg (by
      intro hempty
      rw [List.isEmpty_iff] at hempty
      rw [hempty] at hhigh
      cases hhigh)]
    rw [if_pos hguard2]
    obtain ⟨r, hr, hrp, hcase⟩ := autoSignupAll_covers now _ signups nextId
      p.id (List.mem_map.mpr ⟨p, hhigh, rfl⟩)
    refine ⟨r, hr, hrp, ?_⟩
    rcases hcase with hmem | hnew
    · exact absurd hrp (hfresh r hmem)
    · exact hnew
  · intro s hs
    simp only [immediateHighAutoSignup]
    split <;>
      first
        | exact hs
        | exact autoSignupAll_preserves now _ _ _ _ hs

/-- Witness for C5 amended: player 6 (approved, high) has no prior row
and, after the high-tier notification of a random / random_high_auto
game, holds a `(pending, owner_added)` row; the pre-existing row of
player 5 survives unchanged on both paths. -/
theorem c5_amended_high_auto_signup_witness :
    (∀ pid ∈ (notify_priority_tier
        ⟨10, true, Algorithm.random, Phase.notifying_high, false, false, true⟩
        Priority.high [⟨6, true, Priority.high⟩] []
        [⟨1, 5, 0, Status.waitlist, false, Priority.high⟩] 10 2).2,
      (∀ s ∈ ([⟨1, 5, 0, Status.waitlist, false, Priority.high⟩] : List Signup),
        s.player_id ≠ pid) →
      ∃ r ∈ (notify_priority_tier
          ⟨10, true, Algorithm.random, Phase.notifying_high, false, false, true⟩
          Priority.high [⟨6, true, Priority.high⟩] []
          [⟨1, 5, 0, Status.waitlist, false, Priority.high⟩] 10 2).1,
        r.player_id = pid ∧ r.status = Status.pending ∧
          r.owner_added = true) ∧
    (∀ s ∈ ([⟨1, 5, 0, Status.waitlist, false, Priority.high⟩] : List Signup),
      s ∈ (notify_priority_tier
        ⟨10, true, Algorithm.random, Phase.notifying_high, false, false, true⟩
        Priority.high [⟨6, true, Priority.high⟩] []
        [⟨1, 5, 0, Status.waitlist, false, Priority.high⟩] 10 2).1) ∧
    (∀ p ∈ ([⟨6, true, Priority.high⟩] : List Player), p.approved = true →
      p.priority = Priority.high →
      (∀ s ∈ ([⟨1, 5, 0, Status.waitlist, false, Priority.high⟩] : List Signup),
        s.player_id ≠ p.id) →
      ∃ r ∈ immediateHighAutoSignup
          ⟨10, true, Algorithm.random, Phase.notifying_high, false, false, true⟩
          [⟨6, true, Priority.high⟩]
          [⟨1, 5, 0, Status.waitlist, false, Priority.high⟩] 10 2,
        r.player_id = p.id ∧ r.status = Status.pending ∧
          r.owner_added = true) ∧
    (∀ s ∈ ([⟨1, 5, 0, Status.waitlist, false, Priority.high⟩] : List Signup),
      s ∈ immediateHighAutoSignup
        ⟨10, true, Algorithm.random, Phase.notifying_high, false, false, true⟩
        [⟨6, true, Priority.high⟩]
        [⟨1, 5, 0, Status.waitlist, false, Priority.high⟩] 10 2) :=
  c5_amended_high_auto_signup _ _ [] _ 10 2 rfl rfl

/-- C1 (failing input): on a random game whose selection is already done
(`selection_done = 1`) holding a single pending signup, the scheduled
`run_selection` job is a no-op — its guard `not selection_done and
algorithm == 'random'` fails — but the manual run-selection endpoint,
which only checks `algorithm == 'random'`, re-runs the selection and
mutates the signup's status.  The two entry points do not share the
idempotency guard, so a second (manual) invocation is not a no-op. -/
theorem c1_manual_selection_lacks_guard :
    (execute_job id id JobType.run_selection
      ⟨2, true, Algorithm.random, Phase.active, true, false, false⟩
      [⟨1, 9, 0, Status.pending, false, Priority.standard⟩] [] [] 0 2 =
      ⟨⟨2, true, Algorithm.random, Phase.active, true, false, false⟩,
       [⟨1, 9, 0, Status.pending, false, Priority.standard⟩],
       JobStatus.completed, none⟩) ∧
    (run_selection_endpoint id id
      ⟨2, true, Algorithm.random, Phase.active, true, false, false⟩
      [⟨1, 9, 0, Status.pending, false, Priority.standard⟩] =
      Except.ok ([⟨1, 9, 0, Status.inGame, false, Priority.standard⟩],
        ⟨2, true, Algorithm.random, Phase.active, true, false, false⟩)) := by
  constructor <;> rfl

/-- C8 (failing input): every invocation of `_schedule_cascade_jobs`
raises `TypeError` — its three `get_setting(db, key)` calls omit the
mandatory `group_id` parameter of `get_setting(db, key, group_id)` — so
control never reaches the INSERTs and no cascade job row is ever
created.  The second conjunct shows the INSERT OR IGNORE under
`UNIQUE(game_id, job_type)` would otherwise make re-scheduling a no-op. -/
theorem c8_cascade_scheduling_type_error :
    (∀ (settings : List (String × Nat × String))
        (games : List (Nat × Algorithm)) (jobs : List JobRow)
        (game_id : Nat) (start : Int),
      schedule_cascade_jobs settings games jobs game_id start =
        Except.error
          "TypeError: get_setting missing 1 required positional argument: group_id") ∧
    (∀ (jobs : List JobRow) (row : JobRow),
      insertOrIgnoreJob (insertOrIgnoreJob jobs row) row =
        insertOrIgnoreJob jobs row) := by
  constructor
  · intro settings games jobs game_id start
    rfl
  · intro jobs row
    unfold insertOrIgnoreJob
    by_cases h : jobs.any
        (fun j => j.game_id == row.game_id && j.job_type == row.job_type) = true
    · simp [h]
    · rw [if_neg h, if_pos (by simp [List.any_append])]
